import Mathlib

/-!
Shallow embedding of the Rust tutorial repository (DongzeHE/Rust-tutorials)
and proofs about the claims of its specification.

Machine integers (`u32`, `u8`, `i32`) are embedded as `Nat` / `Int` with an
explicit reduction modulo `2 ^ 32` at every operation where overflow matters
(release-mode wrapping semantics).
-/

/-- Wrapping of a `u32` arithmetic result. -/
def u32wrap (n : Nat) : Nat := n % 2 ^ 32

/-- Wrapping of an `i32` arithmetic result (two's complement). -/
def i32wrap (z : Int) : Int := (z + 2 ^ 31) % 2 ^ 32 - 2 ^ 31

namespace shapes
namespace rectangles

/-- Embedding of `pub struct Rect { pub width: u32, pub height: u32 }`
(src/lecture4/src/paths.rs). The fields are the `u32` values as naturals. -/
structure Rect where
  width : Nat
  height : Nat
  deriving Repr, DecidableEq

/-- Embedding of `Rect::get_area`: `self.width * self.height` in `u32`. -/
def Rect.get_area (self : Rect) : Nat := u32wrap (self.width * self.height)

/-- Embedding of `Rect::get_perimeter`: `self.width * 2 + self.height * 2`
in `u32`. -/
def Rect.get_perimeter (self : Rect) : Nat :=
  u32wrap (u32wrap (self.width * 2) + u32wrap (self.height * 2))

end rectangles

/-- Embedding of `shapes::new_rect` (src/lecture4/src/paths.rs). -/
def new_rect (width height : Nat) : rectangles.Rect :=
  { width := width, height := height }

end shapes

open shapes.rectangles

/-- The calls a client can make on a `Rect` through its `&self` methods. -/
inductive RectCall where
  | area
  | perim
  deriving Repr, DecidableEq

/-- State-passing run of a sequence of method calls on a `Rect`: each call
takes the receiver by shared reference (`&self`), so the call returns its
numeric result together with the receiver state it leaves behind. -/
def runCalls : List RectCall → Rect → Rect × List Nat
  | [], r => (r, [])
  | RectCall.area :: cs, r =>
      let out := r.get_area
      let rest := runCalls cs r
      (rest.1, out :: rest.2)
  | RectCall.perim :: cs, r =>
      let out := r.get_perimeter
      let rest := runCalls cs r
      (rest.1, out :: rest.2)

/-- Embedding of `enum IpAddr { V4(u8,u8,u8,u8), V6(String) }`
(src/lecture5/src/main.rs). Octets are `u8` values as naturals. -/
inductive IpAddr where
  | V4 (a b c d : Nat)
  | V6 (s : String)
  deriving Repr, DecidableEq

/-- `let home = IpAddr::V4(127, 0, 0, 1)` (src/lecture5/src/main.rs). -/
def home : IpAddr := IpAddr.V4 127 0 0 1

/-- `let loopback = IpAddr::V6(String::from("::1"))`
(src/lecture5/src/main.rs). -/
def loopback : IpAddr := IpAddr.V6 "::1"

/-- A match arm: attempting the arm on the scrutinee either fails (the
pattern or its guard does not match, `none`) or produces the arm's value. -/
def runMatch {α β : Type} : List (α → Option β) → α → Option β
  | [], _ => none
  | p :: ps, a =>
      match p a with
      | some b => some b
      | none => runMatch ps a

/-- Index of the first arm, in declaration order, that matches the
scrutinee. -/
def selectedArm {α β : Type} : List (α → Option β) → α → Option Nat
  | [], _ => none
  | p :: ps, a =>
      if (p a).isSome then some 0 else (selectedArm ps a).map (· + 1)

/-- Arms of the first `match home` of src/lecture5/src/main.rs, in
declaration order.  Arm 0: `IpAddr::V4(127,b,c,d) => None`;
arm 1: `IpAddr::V4(a,b,c,d) => None`; arm 2: `_ => Some(home)`
(the wildcard returns the scrutinee wrapped in `Some`). -/
def match1Arms : List (IpAddr → Option (Option IpAddr)) :=
  [ fun a =>
      match a with
      | IpAddr.V4 w _ _ _ => if w = 127 then some none else none
      | _ => none,
    fun a =>
      match a with
      | IpAddr.V4 _ _ _ _ => some none
      | _ => none,
    fun a => some (some a) ]

/-- Arms of the inner `match s.as_str()` of src/lecture5/src/main.rs:
arm 0: `"::1" => println!("V6,::1")`; arm 1: `_ => {}`.  Each arm's value is
the line it prints (the wildcard prints nothing). -/
def innerArms : List (String → Option String) :=
  [ fun s => if s = "::1" then some "V6,::1" else none,
    fun _ => some "" ]

/-- Arms of the second `match loopback` of src/lecture5/src/main.rs, in
declaration order.  Arm 0 is the or-pattern
`IpAddr::V4(127,b,c,d) | IpAddr::V4(128,b,c,d)`; arm 1 is the guarded
`IpAddr::V4(127,b,c,d) if d == 1`; arm 2 is `IpAddr::V4(a,b,c,d)`;
arm 3 is `IpAddr::V6(s)` whose body is the inner match.  Each arm's value
is the line it prints. -/
def match2Arms : List (IpAddr → Option String) :=
  [ fun a =>
      match a with
      | IpAddr.V4 w _ _ _ =>
          if w = 127 ∨ w = 128 then some "V4 127.x.x.x or 128.x.x.x" else none
      | _ => none,
    fun a =>
      match a with
      | IpAddr.V4 w _ _ d =>
          if w = 127 ∧ d = 1 then some "V4 127.x.x.1" else none
      | _ => none,
    fun a =>
      match a with
      | IpAddr.V4 _ _ _ _ => some "Is V4"
      | _ => none,
    fun a =>
      match a with
      | IpAddr.V6 s => runMatch innerArms s
      | _ => none ]

/-- Embedding of `struct MyBox<T>(T)` (src/lecture7/src/mybox.rs): a tuple
struct with the single field `.0`. -/
structure MyBox (α : Type) where
  fst : α
  deriving Repr, DecidableEq

/-- Embedding of `MyBox::new`: `MyBox(x)`. -/
def MyBox.new (x : α) : MyBox α := ⟨x⟩

/-- Embedding of `Deref::deref for MyBox<T>`: `&self.0`. -/
def MyBox.deref (self : MyBox α) : α := self.fst

/-- State-passing view of a `deref` call: `deref` takes `&self`, so the call
yields the contents together with the receiver state it leaves behind. -/
def MyBox.derefCall (self : MyBox α) : α × MyBox α := (self.deref, self)

/-- `let v1 = vec![1,2,3,4]` (src/lecture10/src/5iterator.rs). -/
def v1 : List Int := [1, 2, 3, 4]

/-- `let v2 = vec![5,6,7,8]` (src/lecture10/src/5iterator.rs). -/
def v2 : List Int := [5, 6, 7, 8]

/-- The lazy part of the iterator pipeline of src/lecture10/src/5iterator.rs:
`zip`, `map |(a,b)| *a * *b`, `filter |x| x % 2 == 0`, `map |x| x + 10`,
with `i32` wrapping arithmetic. -/
def pipelineItems (xs ys : List Int) : List Int :=
  ((((xs.zip ys).map fun p => i32wrap (p.1 * p.2)).filter
      fun x => x % 2 == 0).map fun x => i32wrap (x + 10))

/-- `i32` summation as performed by `.sum::<i32>()` over a list of items. -/
def sumList (l : List Int) : Int := l.foldl (fun acc x => i32wrap (acc + x)) 0

/-- `i32` summation over a materialized `Vec<i32>` (an array). -/
def sumVec (a : Array Int) : Int := a.foldl (fun acc x => i32wrap (acc + x)) 0

/-- The pipeline as written in src/lecture10/src/5iterator.rs: the items are
collected into a `Vec<i32>` (`.collect::<Vec<i32>>()`), which is then
iterated over and summed. -/
def pipelineCollect (xs ys : List Int) : Int := sumVec (pipelineItems xs ys).toArray

/-- The fused pipeline, with the intermediate `collect` removed: the items
are summed directly. -/
def pipelineFused (xs ys : List Int) : Int := sumList (pipelineItems xs ys)

/-- State of a `Mutex<i32>`: whether it is currently locked, and the guarded
value. -/
structure MutexState where
  locked : Bool
  value : Nat
  deriving Repr, DecidableEq

/-- Embedding of `Mutex::lock`: blocks (`none`) if the lock is already held,
otherwise acquires it. -/
def MutexState.lock (m : MutexState) : Option MutexState :=
  if m.locked then none else some { m with locked := true }

/-- Release of the lock, as happens when the `MutexGuard` is dropped at the
end of its enclosing scope. -/
def MutexState.unlock (m : MutexState) : MutexState := { m with locked := false }

/-- Embedding of `main` of src/lecture11/src/shared_mem3.rs:
`let m = Mutex::new(5); { let mut num = m.lock().unwrap(); *num = 6; }`
(the guard is dropped — the mutex unlocked — at the scope's end), then
`println!("m = {:?}", m)` acquires the lock again to read the value.
The result is the value the final print observes, or `none` if any lock
acquisition would block. -/
def sharedMem3 : Option Nat := do
  let m : MutexState := { locked := false, value := 5 }
  let num ← m.lock
  let num := { num with value := 6 }
  let m := num.unlock
  let g ← m.lock
  pure g.value

/-- Embedding of `Result::unwrap`: the `Ok` value, or `none` — the program
panics and terminates — on `Err`. -/
def unwrapResult : Except ε α → Option α
  | Except.ok a => some a
  | Except.error _ => none

/-- The `for l in bf.lines() { println!("{}", l.unwrap()) }` loop of
src/lecture4/src/bin/main.rs: each line-read result is unwrapped
immediately; the loop returns the printed lines, or `none` — the program
panics — at the first failing read, performing no recovery or retry. -/
def lecture4FileLoop : List (Except String String) → Option (List String)
  | [] => some []
  | r :: rest =>
      match unwrapResult r with
      | none => none
      | some s => (lecture4FileLoop rest).map fun ls => s :: ls

/-- The fallible tail of `main` of src/lecture4/src/bin/main.rs:
`let f = std::fs::File::open(paths_path).unwrap();` followed by the
line-printing loop.  Parametrized by the outcome of the `File::open` call
and of each line read; `none` means the program terminated by panic. -/
def lecture4Main (openRes : Except String Unit)
    (lines : List (Except String String)) : Option (List String) :=
  match unwrapResult openRes with
  | none => none
  | some _ => lecture4FileLoop lines

/-- Operations a thread performs against the mpsc channel of
src/lecture11/src/message_passing2.rs. -/
inductive ChanOp where
  | send (msg : String)
  | sleep (secs : Nat)
  | recv
  deriving Repr, DecidableEq

/-- Body of the spawned worker thread of src/lecture11/src/message_passing2.rs:
`let s = String::from("one rubber duck in river 1"); tx.send(s).unwrap();
thread::sleep(Duration::from_secs(1));` — a single send followed by a
sleep (the multi-message loop is commented out). -/
def workerOps : List ChanOp := [ChanOp.send "one rubber duck in river 1", ChanOp.sleep 1]

/-- Channel operations performed by `main` after the spawn: none — the
`rx.recv().unwrap()` call is commented out and the trailing
`let received = println!(...)` statement is left incomplete, so no value is
ever consumed from the channel. -/
def mainOps : List ChanOp := []

/-- The messages sent by a list of channel operations, in order. -/
def sentMsgs : List ChanOp → List String
  | [] => []
  | ChanOp.send m :: rest => m :: sentMsgs rest
  | _ :: rest => sentMsgs rest

/-- The number of receive operations in a list of channel operations. -/
def recvCount : List ChanOp → Nat
  | [] => 0
  | ChanOp.recv :: rest => recvCount rest + 1
  | _ :: rest => recvCount rest

/-- Run channel operations over the channel's FIFO queue, also tracking the
values consumed: `send` enqueues, `recv` dequeues (blocking — modelled as
consuming from a non-empty queue; on an empty queue it consumes nothing
here, since no such run occurs in the demo), `sleep` does nothing. -/
def runChannel : List ChanOp → List String → List String → List String × List String
  | [], queue, consumed => (queue, consumed)
  | ChanOp.send m :: rest, queue, consumed => runChannel rest (queue ++ [m]) consumed
  | ChanOp.sleep _ :: rest, queue, consumed => runChannel rest queue consumed
  | ChanOp.recv :: rest, [], consumed => runChannel rest [] consumed
  | ChanOp.recv :: rest, m :: queue, consumed => runChannel rest queue (consumed ++ [m])

/-- Outcome of the worker's `tx.send(s).unwrap()` (line 37 of
src/lecture11/src/message_passing2.rs), parametrized by the send result:
on `Err` the unwrap panics and the worker thread terminates (`none`);
on `Ok` the worker goes on to sleep and finish. -/
def workerRun (sendRes : Except String Unit) : Option Unit :=
  match unwrapResult sendRes with
  | none => none
  | some _ => some ()

/-- C1 (as stated) is false: at `width = height = 2 ^ 16` the `u32`
multiplication in `get_area` wraps to `0`, which is not `width * height`. -/
theorem get_area_overflow_counterexample :
    (Rect.mk (2 ^ 16) (2 ^ 16)).get_area ≠ 2 ^ 16 * 2 ^ 16 := by
  decide

/-- C1 (amended): whenever the `u32` arithmetic does not overflow — i.e.
`width * height < 2 ^ 32` and `2 * (width + height) < 2 ^ 32` — `get_area`
returns `width * height` and `get_perimeter` returns `2 * (width + height)`. -/
theorem rect_area_perimeter_correct (w h : Nat)
    (harea : w * h < 2 ^ 32) (hperim : 2 * (w + h) < 2 ^ 32) :
    (Rect.mk w h).get_area = w * h ∧
      (Rect.mk w h).get_perimeter = 2 * (w + h) := by
  constructor
  · simp only [Rect.get_area, u32wrap]
    exact Nat.mod_eq_of_lt harea
  · have hw2 : w * 2 < 2 ^ 32 := by omega
    have hh2 : h * 2 < 2 ^ 32 := by omega
    simp only [Rect.get_perimeter, u32wrap]
    rw [Nat.mod_eq_of_lt hw2, Nat.mod_eq_of_lt hh2, Nat.mod_eq_of_lt (by omega)]
    omega

/-- Witness for the amended C1 at the rectangle `5 × 5` used throughout
lecture 4. -/
theorem rect_area_perimeter_correct_witness :
    (Rect.mk 5 5).get_area = 5 * 5 ∧ (Rect.mk 5 5).get_perimeter = 2 * (5 + 5) :=
  rect_area_perimeter_correct 5 5 (by decide) (by decide)

/-- C8: `get_area` and `get_perimeter` are derived values: running any
sequence of method calls leaves the receiver unchanged, and a `Rect` is
determined by its `width` and `height` fields alone (it stores nothing
else). -/
theorem rect_methods_pure (r : Rect) (cs : List RectCall) :
    (runCalls cs r).1 = r ∧
      ∀ r' : Rect, r.width = r'.width → r.height = r'.height → r = r' := by
  constructor
  · induction cs with
    | nil => rfl
    | cons c cs ih => cases c <;> simpa [runCalls] using ih
  · intro r' hw hh
    cases r
    cases r'
    simp_all

/-- Witness for C8 at a concrete rectangle and call sequence. -/
theorem rect_methods_pure_witness :
    (runCalls [RectCall.area, RectCall.perim, RectCall.area] (Rect.mk 5 6)).1
        = Rect.mk 5 6 ∧
      Rect.mk 5 6 = Rect.mk 5 6 :=
  ⟨(rect_methods_pure (Rect.mk 5 6) [RectCall.area, RectCall.perim, RectCall.area]).1,
   (rect_methods_pure (Rect.mk 5 6) []).2 (Rect.mk 5 6) rfl rfl⟩

/-- Helper: `selectedArm` really is the index of the first arm, in
declaration order, that matches, and `runMatch` returns that arm's value. -/
theorem selectedArm_spec {α β : Type} (ps : List (α → Option β)) (a : α)
    (i : Nat) (h : selectedArm ps a = some i) :
    (∀ j, j < i → ∀ p, ps.get? j = some p → p a = none) ∧
      ∃ p, ps.get? i = some p ∧ (p a).isSome ∧ runMatch ps a = p a := by
  induction ps generalizing i with
  | nil => simp [selectedArm] at h
  | cons p ps ih =>
    by_cases hp : (p a).isSome
    · simp [selectedArm, hp] at h
      subst h
      refine ⟨by omega, p, rfl, hp, ?_⟩
      obtain ⟨b, hb⟩ := Option.isSome_iff_exists.mp hp
      simp [runMatch, hb]
    · simp [selectedArm, hp] at h
      obtain ⟨i', hi', rfl⟩ := h
      obtain ⟨hfirst, q, hq, hqs, hrun⟩ := ih i' hi'
      have hnone : p a = none := Option.not_isSome_iff_eq_none.mp hp
      constructor
      · intro j hj p' hp'
        cases j with
        | zero =>
          simp at hp'
          subst hp'
          exact hnone
        | succ j => exact hfirst j (by omega) p' (by simpa using hp')
      · exact ⟨q, by simpa using hq, hqs, by simp [runMatch, hnone, hrun]⟩

/-- C2: each match of the IP-address example selects the first arm, in
declaration order, whose pattern (or-patterns and guards included) matches:
for `home = IpAddr::V4(127,0,0,1)` the first match selects arm 0 and yields
`None`; for `loopback = IpAddr::V6("::1")` the second match selects arm 3
(the `IpAddr::V6` arm) whose inner match selects arm 0 (the `"::1"` arm);
and in general `runMatch` on the second match's arms returns the value of
the arm `selectedArm` picks, every earlier arm failing to match. -/
theorem lecture5_match_first_arm :
    selectedArm match1Arms home = some 0 ∧
      runMatch match1Arms home = some none ∧
      selectedArm match2Arms loopback = some 3 ∧
      runMatch match2Arms loopback = some "V6,::1" ∧
      selectedArm innerArms "::1" = some 0 ∧
      runMatch innerArms "::1" = some "V6,::1" ∧
      ∀ (a : IpAddr) (i : Nat), selectedArm match2Arms a = some i →
        (∀ j, j < i → ∀ p, match2Arms.get? j = some p → p a = none) ∧
          ∃ p, match2Arms.get? i = some p ∧ runMatch match2Arms a = p a := by
  refine ⟨by decide, by decide, by decide, by decide, by decide, by decide, ?_⟩
  intro a i h
  obtain ⟨hfirst, p, hp, _, hrun⟩ := selectedArm_spec match2Arms a i h
  exact ⟨hfirst, p, hp, hrun⟩

/-- Witness for C2's universally quantified part, at the scrutinee
`loopback` and the selected arm index 3. -/
theorem lecture5_match_first_arm_witness :
    (∀ j, j < 3 → ∀ p, match2Arms.get? j = some p → p loopback = none) ∧
      ∃ p, match2Arms.get? 3 = some p ∧
        runMatch match2Arms loopback = p loopback :=
  lecture5_match_first_arm.2.2.2.2.2.2 loopback 3 (by decide)

/-- C9: the guard arm `IpAddr::V4(127,b,c,d) if d == 1` (arm 1 of the
second match) is unreachable: no `IpAddr` value selects it, since every
value matching it already matches the preceding or-pattern arm. -/
theorem guard_arm_unreachable (a : IpAddr) :
    selectedArm match2Arms a ≠ some 1 := by
  cases a with
  | V4 w x y z =>
    by_cases h : w = 127 ∨ w = 128
    · simp [selectedArm, match2Arms, h]
    · have h1 : ¬(w = 127 ∧ z = 1) := fun hc => h (Or.inl hc.1)
      simp [selectedArm, match2Arms, h, h1]
  | V6 s =>
    by_cases hs : s = "::1" <;>
      simp [selectedArm, match2Arms, runMatch, innerArms, hs]

/-- C3: dereferencing the custom pointer wrapper returns exactly the value
it was constructed from; the access is read-only (the state-passing view of
the `&self` call leaves the receiver unchanged) and the wrapper consists of
that single field (every `MyBox` is `new` of its dereference). -/
theorem mybox_deref_transparent (α : Type) (x : α) :
    (MyBox.new x).deref = x ∧
      ∀ b : MyBox α, b.derefCall = (b.deref, b) ∧ MyBox.new b.deref = b := by
  refine ⟨rfl, fun b => ⟨rfl, ?_⟩⟩
  cases b
  rfl

/-- C4: on `v1 = [1,2,3,4]` and `v2 = [5,6,7,8]` the pipeline's products
are `[5,12,21,32]`, the even ones `[12,32]`, after `+10` they are
`[22,42]`, and the computed sum is `64`. -/
theorem iterator_pipeline_value :
    ((v1.zip v2).map fun p => i32wrap (p.1 * p.2)) = [5, 12, 21, 32] ∧
      (((v1.zip v2).map fun p => i32wrap (p.1 * p.2)).filter
          fun x => x % 2 == 0) = [12, 32] ∧
      pipelineItems v1 v2 = [22, 42] ∧
      pipelineCollect v1 v2 = 64 := by
  decide

/-- C10: for every pair of integer vectors, the pipeline that materializes
an intermediate `Vec` before summing returns the same value as the fused
pipeline with the intermediate collect removed. -/
theorem collect_fusion (xs ys : List Int) :
    pipelineCollect xs ys = pipelineFused xs ys := by
  unfold pipelineCollect pipelineFused sumVec sumList
  rw [Array.foldl_eq_foldl_toList, Array.toList_toArray]

/-- C5: in the mutex demo a single lock guards the value `5`; the inner
scope sets it to `6` and releases the lock at its end, and the final access
(the debug print) acquires the lock without blocking and observes `6`. -/
theorem shared_mem3_observes_six : sharedMem3 = some 6 := rfl

/-- C6: fallible operations are unwrapped immediately, so the program
terminates (panics) at its first failure with no recovery or retry: if
`File::open` fails, the lecture-4 program terminates; if any line read
fails, the printing loop terminates at that line; and if the channel send
fails, the worker of the message-passing demo terminates. -/
theorem unwrap_terminates_on_failure :
    (∀ (e : String) (lines : List (Except String String)),
        lecture4Main (Except.error e) lines = none) ∧
      (∀ (pre : List String) (e : String) (post : List (Except String String)),
          lecture4FileLoop
            (pre.map Except.ok ++ Except.error e :: post) = none) ∧
      ∀ e : String, workerRun (Except.error e) = none := by
  refine ⟨fun e lines => rfl, fun pre e post => ?_, fun e => rfl⟩
  induction pre with
  | nil => rfl
  | cons s pre ih => simp [lecture4FileLoop, unwrapResult, ih]

/-- C7: the channel demo's worker sends exactly the one string
`"one rubber duck in river 1"`, the program performs no receive (the
receiving call is commented out / left incomplete), and so after the run
the message is still queued and nothing was consumed. -/
theorem channel_one_send_nothing_consumed :
    sentMsgs workerOps = ["one rubber duck in river 1"] ∧
      (sentMsgs workerOps).length = 1 ∧
      recvCount (workerOps ++ mainOps) = 0 ∧
      runChannel (workerOps ++ mainOps) [] []
        = (["one rubber duck in river 1"], []) :=
  ⟨rfl, rfl, rfl, rfl⟩
